import Mathlib

/-!
# Verification of the trading_system signal-to-order decision engine

A shallow embedding of the core of the `osegonte/trading_system` repository
(support/resistance detection, breakout signal generation, risk / position
sizing, and the Martingale/DCA state machine) together with proofs that
settle the frozen specification claims.

Conventions of the embedding:
* Python `float` arithmetic is modelled with exact rationals (`ℚ`); Python's
  `round` builtin (banker's rounding, round-half-to-even) is modelled by
  `pyroundInt` / `pyround`, and `int(x)` truncation by `truncQ`.
* Python `datetime.now()` is modelled by an explicit `now : ℕ` clock
  parameter; `dict.get(key, default)` on JSON-backed records is modelled by
  `Option` fields read through `Option.getD`.
* Python dicts keyed by symbol are modelled as association lists with the
  first binding of a key authoritative (`List.lookup`).
-/

/-- Round-half-to-even to an integer, the semantics of Python's one-argument
`round` builtin on an exact value: the floor when the fractional part is
below `1/2`, the ceiling when above, the even neighbour on a tie. -/
def pyroundInt (x : ℚ) : ℤ :=
  if 2 * x < 2 * ⌊x⌋ + 1 then ⌊x⌋
  else if 2 * ⌊x⌋ + 1 < 2 * x then ⌊x⌋ + 1
  else if ⌊x⌋ % 2 = 0 then ⌊x⌋ else ⌊x⌋ + 1

/-- Python's two-argument `round(x, p)`: round-half-to-even at `p` decimal
places. -/
def pyround (x : ℚ) (p : ℕ) : ℚ :=
  (pyroundInt (x * 10 ^ p) : ℚ) / 10 ^ p

/-- Python's `int(x)` on a float: truncation toward zero. -/
def truncQ (x : ℚ) : ℤ :=
  if x < 0 then -⌊-x⌋ else ⌊x⌋

theorem pyroundInt_le (x : ℚ) : (pyroundInt x : ℚ) ≤ x + 1/2 := by
  unfold pyroundInt
  have h1 : ((⌊x⌋ : ℤ) : ℚ) ≤ x := Int.floor_le x
  have h2 : x < (⌊x⌋ : ℤ) + 1 := Int.lt_floor_add_one x
  split_ifs <;> push_cast at * <;> linarith

theorem le_pyroundInt (x : ℚ) : x - 1/2 ≤ (pyroundInt x : ℚ) := by
  unfold pyroundInt
  have h1 : ((⌊x⌋ : ℤ) : ℚ) ≤ x := Int.floor_le x
  have h2 : x < (⌊x⌋ : ℤ) + 1 := Int.lt_floor_add_one x
  split_ifs <;> push_cast at * <;> linarith

/-- Stable insertion (descending by `key`): an element is placed before the
first existing element whose key is `≤` its own, which reproduces the result
of Python's stable `list.sort(key=..., reverse=True)`. -/
def insertByDesc {α : Type} (key : α → ℚ) (x : α) : List α → List α
  | [] => [x]
  | y :: ys => if key y ≤ key x then x :: y :: ys else y :: insertByDesc key x ys

/-- Stable insertion sort, descending by `key`. -/
def sortByDesc {α : Type} (key : α → ℚ) : List α → List α
  | [] => []
  | x :: xs => insertByDesc key x (sortByDesc key xs)

/-- Stable insertion (ascending by `key`), reproducing Python's stable
`sorted(..., key=...)`. -/
def insertByAsc {α : Type} (key : α → ℚ) (x : α) : List α → List α
  | [] => [x]
  | y :: ys => if key x ≤ key y then x :: y :: ys else y :: insertByAsc key x ys

/-- Stable insertion sort, ascending by `key`. -/
def sortByAsc {α : Type} (key : α → ℚ) : List α → List α
  | [] => []
  | x :: xs => insertByAsc key x (sortByAsc key xs)

theorem map_insertByDesc {α β : Type} (f : α → β) (kα : α → ℚ) (kβ : β → ℚ)
    (h : ∀ a, kβ (f a) = kα a) (x : α) (l : List α) :
    (insertByDesc kα x l).map f = insertByDesc kβ (f x) (l.map f) := by
  induction l with
  | nil => rfl
  | cons y ys ih =>
    simp only [insertByDesc, List.map_cons, h]
    split <;> simp [List.map_cons, ih]

theorem map_sortByDesc {α β : Type} (f : α → β) (kα : α → ℚ) (kβ : β → ℚ)
    (h : ∀ a, kβ (f a) = kα a) (l : List α) :
    (sortByDesc kα l).map f = sortByDesc kβ (l.map f) := by
  induction l with
  | nil => rfl
  | cons x xs ih =>
    simp only [sortByDesc, List.map_cons, ← ih]
    exact map_insertByDesc f kα kβ h x (sortByDesc kα xs)

/-- Sum of a list of rationals. -/
def listSum (l : List ℚ) : ℚ := l.foldl (· + ·) 0

/-- `max` of a list (Python's `max(...)`); junk value `0` on the empty list,
which the source never queries. -/
def listMax : List ℚ → ℚ
  | [] => 0
  | x :: xs => xs.foldl max x

/-- `min` of a list (Python's `min(...)`); junk value `0` on the empty list. -/
def listMin : List ℚ → ℚ
  | [] => 0
  | x :: xs => xs.foldl min x

/-- Python slice `data[a:b]`. -/
def pyslice (data : List ℚ) (a b : ℕ) : List ℚ :=
  (data.drop a).take (b - a)

/-! ## Data model (`core/models.py`) -/

/-- `core.models.SignalType`. -/
inductive SignalType where
  | ENTRY_LONG
  | ENTRY_SHORT
  | EXIT_LONG
  | EXIT_SHORT
deriving DecidableEq, Repr

/-- `core.models.PriceBar` after `__post_init__`: a single OHLCV bar.
Timestamps are abstract clock values (`ℕ`). The field `open` is spelled
`open_` because `open` is a Lean keyword. -/
structure PriceBar where
  timestamp : ℕ
  open_ : ℚ
  high : ℚ
  low : ℚ
  close : ℚ
  volume : ℚ := 0
deriving DecidableEq, Repr

instance : Inhabited PriceBar := ⟨⟨0, 0, 0, 0, 0, 0⟩⟩

/-- Constructing a `PriceBar`, including the OHLC auto-correction performed by
`PriceBar.__post_init__`: on a violated invariant, `high` is first widened to
the maximum of all four prices and `low` is then recomputed from the already
widened `high` (as in the source's sequential assignments). -/
def mkPriceBar (timestamp : ℕ) (open_ high low close : ℚ) (volume : ℚ := 0) :
    PriceBar :=
  if high < max open_ close ∨ min open_ close < low then
    let high' := max open_ (max high (max low close))
    let low' := min open_ (min high' (min low close))
    { timestamp := timestamp, open_ := open_, high := high', low := low',
      close := close, volume := volume }
  else
    { timestamp := timestamp, open_ := open_, high := high, low := low,
      close := close, volume := volume }

/-- `core.models.PriceData`: a symbol's bar series. -/
structure PriceData where
  symbol : String
  timeframe : String
  bars : List PriceBar
deriving DecidableEq, Repr

/-- `core.models.PriceLevel`: a detected support/resistance level.
`created_at` is the clock value at detection time. -/
structure PriceLevel where
  price : ℚ
  level_type : String
  strength : ℚ
  created_at : ℕ
deriving DecidableEq, Repr

/-- `core.models.LevelData`: the set of levels detected for one symbol. -/
structure LevelData where
  symbol : String
  timeframe : String
  levels : List PriceLevel
  last_updated : ℕ
deriving DecidableEq, Repr

/-- The metadata dictionary attached to a `SignalData`; every key the core
reads or writes is an optional field (`none` models an absent key). -/
structure SignalMeta where
  order_type : Option String := none
  level_price : Option ℚ := none
  level_type : Option String := none
  position_count : Option ℤ := none
  asset_type : Option String := none
  breakout_bar : Option ℕ := none
deriving DecidableEq, Repr

/-- `core.models.SignalData` (the `signal_id` UUID, a freshness token with no
algorithmic role, is not modelled). -/
structure SignalData where
  symbol : String
  signal_type : SignalType
  price : ℚ
  timestamp : ℕ
  expiration : Option ℕ := none
  confidence : ℚ := 1
  metadata : SignalMeta := {}
deriving DecidableEq, Repr

/-- `core.models.RiskParameters`. -/
structure RiskParameters where
  position_size : ℚ
  stop_loss_price : ℚ
  take_profit_price : Option ℚ := none
  trailing_stop : Bool := false
  trailing_stop_distance : Option ℚ := none
  max_drawdown : Option ℚ := none
deriving DecidableEq, Repr

/-! ## Martingale/DCA strategy (`modules/strategies/martingale_dca.py`) -/

/-- One per-symbol record of `MartingaleDCAStrategy.equities`.  The JSON-backed
dict is read through `.get(key, default)` everywhere, so every field is
optional; `Option.getD` applies the source's defaults at each use site. -/
structure EquityState where
  system_on : Option Bool := none
  has_position : Option Bool := none
  asset_type : Option String := none
  entry_price : Option ℚ := none
  last_buy_price : Option ℚ := none
  drawdown_pct : Option ℚ := none
  levels : Option ℤ := none
  position_count : Option ℤ := none
deriving DecidableEq, Repr

/-- The in-memory equities map (a Python dict keyed by symbol). -/
abbrev Equities := List (String × EquityState)

/-- Replace the state bound to `sym`, modelling in-place mutation of
`self.equities[sym]`. -/
def updateEquity (eqs : Equities) (sym : String) (f : EquityState → EquityState) :
    Equities :=
  eqs.map fun p => if p.1 = sym then (p.1, f p.2) else p

/-- Python's `str.upper()` (character-wise, as for the ASCII symbols the
source classifies). Defined on the character list so that it computes by
kernel reduction. -/
def pyUpper (s : String) : String := ⟨s.data.map Char.toUpper⟩

/-- Python's `str.endswith(suffix)`. -/
def pyEndsWith (s suffix : String) : Bool := suffix.data.isSuffixOf s.data

/-- Python's `c in s` membership test for a single character. -/
def pyContainsChar (s : String) (c : Char) : Bool := s.data.contains c

/-- Python's `any(char.isdigit() for char in s)`. -/
def pyAnyDigit (s : String) : Bool := s.data.any Char.isDigit

/-- Python's `len(s)`. -/
def pyLength (s : String) : ℕ := s.data.length

/-- The crypto ticker allow-list shared by
`MartingaleDCAStrategy._get_asset_type` and `RiskManager._detect_asset_type`. -/
def cryptoTickers : List String :=
  ["BTC", "ETH", "ADA", "DOT", "LINK", "LTC", "XRP", "DOGE", "MATIC", "SOL"]

/-- `MartingaleDCAStrategy._get_asset_type`: classify a symbol, crypto
patterns first, then forex patterns, defaulting to stock. -/
def get_asset_type (symbol : String) : String :=
  let symbol_upper := pyUpper symbol
  if pyEndsWith symbol_upper "-USD" || pyEndsWith symbol_upper "USD" then
    "crypto"
  else if symbol_upper ∈ cryptoTickers then "crypto"
  else if pyContainsChar symbol '='
      || (decide (pyLength symbol = 6) && !pyAnyDigit symbol) then "forex"
  else if pyEndsWith symbol_upper "=X" then "forex"
  else "stock"

/-- `MartingaleDCAStrategy._get_trigger_threshold`. -/
def get_trigger_threshold (asset_type : String) : ℚ :=
  if asset_type = "stock" then 0.05
  else if asset_type = "crypto" then 0.03
  else if asset_type = "forex" then 0.02
  else 0.05

/-- Decimal precision from `MartingaleDCAStrategy.asset_configs`
(`.get(asset_type, asset_configs['stock'])`). -/
def dca_precision (asset_type : String) : ℕ :=
  if asset_type = "stock" then 2
  else if asset_type = "crypto" then 8
  else if asset_type = "forex" then 5
  else 2

/-- Per-class progressive-scaling multiplier from
`MartingaleDCAStrategy.generate_dca_levels` (`multipliers.get(asset_type, 1.2)`). -/
def dca_multiplier (asset_type : String) : ℚ :=
  if asset_type = "stock" then 1.2
  else if asset_type = "crypto" then 1.3
  else if asset_type = "forex" then 1.1
  else 1.2

/-- `MartingaleDCAStrategy.generate_dca_levels`: level `i` (0-indexed) is
`entry_price * (1 - drawdown_pct*(i+1)*multiplier/100)` rounded to the asset
class's decimal precision.  `levels` is a Python int; `range` of a
non-positive count is empty. -/
def generate_dca_levels (entry_price drawdown_pct : ℚ) (levels : ℤ)
    (asset_type : String := "stock") : List ℚ :=
  let precision := dca_precision asset_type
  let multiplier := dca_multiplier asset_type
  (List.range levels.toNat).map fun (i : ℕ) =>
    let level_drawdown := drawdown_pct * ((i : ℚ) + 1) * multiplier
    pyround (entry_price * (1 - level_drawdown / 100)) precision

/-- The DCA-level scan of `MartingaleDCAStrategy.execute`: walk the levels in
ascending index order and return the first one the current price qualifies
for (`break` after the first hit). -/
def dcaFind (lvls : List ℚ) (current_price last_buy_price θ : ℚ) : Option ℚ :=
  match lvls with
  | [] => none
  | level_price :: rest =>
    if current_price ≤ level_price ∧
        current_price < last_buy_price * (1 - θ) then some level_price
    else dcaFind rest current_price last_buy_price θ

/-- The initial market-entry signal built by `MartingaleDCAStrategy.execute`. -/
def initialSignal (sym : String) (current_price : ℚ) (asset_type : String)
    (now : ℕ) : SignalData :=
  { symbol := sym, signal_type := .ENTRY_LONG, price := current_price,
    timestamp := now, confidence := 1,
    metadata := { order_type := some "initial_entry",
                  asset_type := some asset_type } }

/-- The DCA-leg signal built by `MartingaleDCAStrategy.execute`. -/
def dcaLegSignal (sym : String) (level_price : ℚ) (position_count : ℤ)
    (asset_type : String) (now : ℕ) : SignalData :=
  { symbol := sym, signal_type := .ENTRY_LONG, price := level_price,
    timestamp := now, confidence := 0.8,
    metadata := { order_type := some "dca_level",
                  level_price := some level_price,
                  position_count := some position_count,
                  asset_type := some asset_type } }

/-- `MartingaleDCAStrategy.execute`.  Returns the emitted signals, the
equities map after any in-place mutations, and the number of
`save_equities` calls performed. -/
def dcaExecute (eqs : Equities) (symbol : Option String) (current_price : ℚ)
    (now : ℕ) : List SignalData × Equities × ℕ :=
  match symbol with
  | none => ([], eqs, 0)
  | some sym =>
    if sym = "" then ([], eqs, 0)
    else if current_price ≤ 0 then ([], eqs, 0)
    else
      match List.lookup sym eqs with
      | none => ([], eqs, 0)
      | some ed0 =>
        if ed0.system_on.getD false then
          let asset_type := ed0.asset_type.getD "stock"
          if ed0.has_position.getD false then
            -- already in a position: only the DCA-level scan can fire
            let lvls := generate_dca_levels (ed0.entry_price.getD current_price)
              (ed0.drawdown_pct.getD 5) (ed0.levels.getD 5) asset_type
            let last_buy_price :=
              ed0.last_buy_price.getD (ed0.entry_price.getD current_price)
            let θ := get_trigger_threshold asset_type
            match dcaFind lvls current_price last_buy_price θ with
            | some level_price =>
              let pc := ed0.position_count.getD 0 + 1
              ([dcaLegSignal sym level_price pc asset_type now],
               updateEquity eqs sym fun e =>
                 { e with last_buy_price := some current_price,
                          position_count := some pc },
               1)
            | none => ([], eqs, 0)
          else
            -- place the initial market order, then run the DCA-level scan
            let ed1 : EquityState :=
              { ed0 with has_position := some true,
                         entry_price := some current_price,
                         last_buy_price := some current_price,
                         position_count := some 1 }
            let eqs1 := updateEquity eqs sym fun _ => ed1
            let lvls := generate_dca_levels (ed1.entry_price.getD current_price)
              (ed1.drawdown_pct.getD 5) (ed1.levels.getD 5) asset_type
            let last_buy_price :=
              ed1.last_buy_price.getD (ed1.entry_price.getD current_price)
            let θ := get_trigger_threshold asset_type
            match dcaFind lvls current_price last_buy_price θ with
            | some level_price =>
              let pc := ed1.position_count.getD 0 + 1
              ([initialSignal sym current_price asset_type now,
                dcaLegSignal sym level_price pc asset_type now],
               updateEquity eqs1 sym fun e =>
                 { e with last_buy_price := some current_price,
                          position_count := some pc },
               2)
            | none => ([initialSignal sym current_price asset_type now], eqs1, 1)
        else ([], eqs, 0)

/-! ## Persistence (`MartingaleDCAStrategy.load_equities` / `save_equities`)

The file system is modelled by a `Store`: the main equities file (its exact
byte contents, `none` when the file does not exist), the `.bak` sidecar
written by `save_equities`, and the timestamped `.backup_<ts>` quarantine
files created on corruption.  JSON encoding/decoding lives in the Python
standard library, not in this repository, so it is abstracted as a pair of
functions `parse` (returning `none` exactly when `json.load` would raise
`JSONDecodeError`) and `serialize`. -/

/-- The on-disk state touched by the persistence layer. -/
structure Store where
  main : Option String
  bak : Option String := none
  backups : List (ℕ × String) := []
deriving DecidableEq, Repr

/-- `MartingaleDCAStrategy.save_equities`: copy the existing file to the
`.bak` sidecar, then overwrite the main file with the serialized map. -/
def save_equities (serialize : Equities → String) (eqs : Equities)
    (store : Store) : Store :=
  let store1 :=
    match store.main with
    | some contents => { store with bak := some contents }
    | none => store
  { store1 with main := some (serialize eqs) }

/-- The migration loop of `load_equities`: records missing an `asset_type`
key get one from `_get_asset_type`. -/
def migrate_equities (eqs : Equities) : Equities :=
  eqs.map fun p =>
    match p.2.asset_type with
    | none => (p.1, { p.2 with asset_type := some (get_asset_type p.1) })
    | some _ => p

/-- `MartingaleDCAStrategy.load_equities` at engine start-up, at clock `ts`:
* a missing or zero-length file is a cold start (empty map, file re-created);
* contents that fail to parse are renamed to a timestamped `.backup_<ts>`
  file, after which the engine cold-starts with an empty map;
* contents that parse become the in-memory map, after asset-type migration.
The function is total: no branch escapes to the caller. -/
def load_equities (parse : String → Option Equities)
    (serialize : Equities → String) (store : Store) (ts : ℕ) :
    Equities × Store :=
  match store.main with
  | some contents =>
    if contents.length > 0 then
      match parse contents with
      | some eqs => (migrate_equities eqs, store)
      | none =>
        -- JSONDecodeError: rename the corrupted file to `.backup_<ts>`,
        -- reset to an empty map and save it
        let store1 : Store :=
          { store with main := none, backups := (ts, contents) :: store.backups }
        ([], save_equities serialize [] store1)
    else ([], save_equities serialize [] store)
  | none => ([], save_equities serialize [] store)

/-! ## Risk manager (`modules/risk_management/position_sizing.py`) -/

/-- One row of `RiskManager.asset_configs`. -/
structure AssetRiskConfig where
  risk_per_trade : ℚ
  max_position_size : ℚ
  stop_multiplier : ℚ
  target_rr_ratio : ℚ
  min_price : ℚ
deriving DecidableEq, Repr

/-- `RiskManager.asset_configs.get(asset_type, asset_configs['stock'])`. -/
def rm_asset_config (asset_type : String) : AssetRiskConfig :=
  if asset_type = "stock" then
    { risk_per_trade := 0.01, max_position_size := 0.1, stop_multiplier := 1.5,
      target_rr_ratio := 2.0, min_price := 0.01 }
  else if asset_type = "crypto" then
    { risk_per_trade := 0.005, max_position_size := 0.05, stop_multiplier := 2.0,
      target_rr_ratio := 2.5, min_price := 0.000001 }
  else if asset_type = "forex" then
    { risk_per_trade := 0.015, max_position_size := 0.15, stop_multiplier := 1.0,
      target_rr_ratio := 1.5, min_price := 0.00001 }
  else
    { risk_per_trade := 0.01, max_position_size := 0.1, stop_multiplier := 1.5,
      target_rr_ratio := 2.0, min_price := 0.01 }

/-- `RiskManager._detect_asset_type` — textually the same classifier as
`MartingaleDCAStrategy._get_asset_type`. -/
def rm_detect_asset_type (symbol : String) : String :=
  let symbol_upper := pyUpper symbol
  if pyEndsWith symbol_upper "-USD" || pyEndsWith symbol_upper "USD" then
    "crypto"
  else if symbol_upper ∈ cryptoTickers then "crypto"
  else if pyContainsChar symbol '='
      || (decide (pyLength symbol = 6) && !pyAnyDigit symbol) then "forex"
  else if pyEndsWith symbol_upper "=X" then "forex"
  else "stock"

/-- The asset class `RiskManager.execute` resolves for a signal:
`signal.metadata.get("asset_type", self._detect_asset_type(signal.symbol))`. -/
def rm_resolved_asset (sg : SignalData) : String :=
  sg.metadata.asset_type.getD (rm_detect_asset_type sg.symbol)

/-- ATR(14) as computed inline by `RiskManager.execute`: with fewer than 14
bars, the last bar's `|high - low|`; otherwise the mean over the last 14 bars
of the true range, where the oldest of the 14 contributes its plain
high−low range. -/
def atr (bars : List PriceBar) : ℚ :=
  if bars.length < 14 then
    let lastb := bars.getLastD default
    |lastb.high - lastb.low|
  else
    let n := bars.length
    let true_ranges := (List.range 14).map fun k =>
      let b := bars.getD (n - 14 + k) default
      let high_low := b.high - b.low
      if k = 0 then high_low
      else
        let prev := bars.getD (n - 14 + k - 1) default
        max high_low (max |b.high - prev.close| |b.low - prev.close|)
    listSum true_ranges / (true_ranges.length : ℚ)

/-- The stop-loss price computed by `RiskManager.execute` before the final
minimum-price clamp: ATR-based stop, tightened toward a broken breakout
level when the metadata names one (a `level_price` of `0.0` is falsy in
Python and ignored), then pushed out to the class's minimum stop distance.
Non-entry signal types leave the initial `0.0`. -/
def rm_stop_loss (sg : SignalData) (a : ℚ) (asset_type : String) : ℚ :=
  let ac := rm_asset_config asset_type
  let stop_distance := a * ac.stop_multiplier
  match sg.signal_type with
  | .ENTRY_LONG =>
    let s1 :=
      match sg.metadata.level_price with
      | some lp =>
        if lp ≠ 0 ∧ sg.metadata.level_type = some "resistance" then
          min (sg.price - stop_distance) (lp * 0.99)
        else sg.price - stop_distance
      | none => sg.price - stop_distance
    let min_stop_distance :=
      if asset_type = "crypto" then sg.price * 0.02 else sg.price * 0.01
    if sg.price - s1 < min_stop_distance then sg.price - min_stop_distance
    else s1
  | .ENTRY_SHORT =>
    let s1 :=
      match sg.metadata.level_price with
      | some lp =>
        if lp ≠ 0 ∧ sg.metadata.level_type = some "support" then
          max (sg.price + stop_distance) (lp * 1.01)
        else sg.price + stop_distance
      | none => sg.price + stop_distance
    let min_stop_distance :=
      if asset_type = "crypto" then sg.price * 0.02 else sg.price * 0.01
    if s1 - sg.price < min_stop_distance then sg.price + min_stop_distance
    else s1
  | _ => 0

/-- The position size computed by `RiskManager.execute` after risk-based
sizing and conversion to the class's native unit (dollar notional, micro
lots, or whole-share notional), but before the final minimum-position
check. -/
def rm_sized (account_size : ℚ) (sg : SignalData) (bars : List PriceBar) : ℚ :=
  let asset_type := rm_resolved_asset sg
  let ac := rm_asset_config asset_type
  let stop_loss_price := rm_stop_loss sg (atr bars) asset_type
  let risk_amount := account_size * ac.risk_per_trade
  let price_risk := |sg.price - stop_loss_price|
  let position_size := if price_risk ≤ 0 then 0 else risk_amount / price_risk
  let max_size := account_size * ac.max_position_size
  if asset_type = "crypto" then min position_size max_size
  else if asset_type = "forex" then
    let max_lot_size := max_size / sg.price
    let p := min position_size max_lot_size
    (pyroundInt (p / 1000) : ℚ) * 1000
  else
    let max_shares := max_size / sg.price
    let p := min (position_size / sg.price) max_shares
    (truncQ p : ℚ) * sg.price

/-- The take-profit price computed by `RiskManager.execute` before the final
minimum-price clamp: `reference_price ± price_risk * target_rr_ratio`,
direction-dependent; non-entry signal types leave the initial `0.0`. -/
def rm_take_profit (sg : SignalData) (price_risk : ℚ) (asset_type : String) : ℚ :=
  let ac := rm_asset_config asset_type
  match sg.signal_type with
  | .ENTRY_LONG => sg.price + price_risk * ac.target_rr_ratio
  | .ENTRY_SHORT => sg.price - price_risk * ac.target_rr_ratio
  | _ => 0

/-- The `RiskParameters` record built at the end of `RiskManager.execute`
(the function's single successful exit), including the $10 minimum-position
check (`asset_config.get('min_position', 10.0)`; no config defines the key,
so the default always applies) and the minimum-price clamps on stop and
take-profit. -/
def rm_result (account_size : ℚ) (sg : SignalData) (bars : List PriceBar) :
    RiskParameters :=
  let asset_type := rm_resolved_asset sg
  let ac := rm_asset_config asset_type
  let a := atr bars
  let stop_loss_price := rm_stop_loss sg a asset_type
  let price_risk := |sg.price - stop_loss_price|
  let sized := rm_sized account_size sg bars
  let min_position : ℚ := 10
  let take_profit_price := rm_take_profit sg price_risk asset_type
  { position_size := if sized < min_position then 0 else sized,
    stop_loss_price :=
      if stop_loss_price < ac.min_price then ac.min_price else stop_loss_price,
    take_profit_price :=
      some (if take_profit_price < ac.min_price then ac.min_price
            else take_profit_price),
    trailing_stop := true,
    trailing_stop_distance := some a,
    max_drawdown := some (ac.risk_per_trade * 5) }

/-- `RiskManager.execute`.  Missing inputs (`signal`/`price_data` absent, or
an empty bar list) give `none`; every other input yields the
`RiskParameters` of `rm_result`. -/
def rm_execute (account_size : ℚ) (signal : Option SignalData)
    (price_data : Option PriceData) : Option RiskParameters :=
  match signal, price_data with
  | some sg, some pd =>
    if pd.bars.isEmpty then none
    else some (rm_result account_size sg pd.bars)
  | _, _ => none

/-! ## Level detector (`modules/level_identification/sr_detector.py`) -/

/-- `SupportResistanceDetector` configuration (constructor defaults). -/
structure SRConfig where
  window_size : ℕ := 10
  threshold : ℚ := 0.03
  min_strength : ℚ := 0.5
  max_levels : ℕ := 5
deriving DecidableEq, Repr

/-- `SupportResistanceDetector._find_peaks` before clustering: a peak is an
interior point equal to the maximum of its `±window` neighbourhood; its
strength is the smaller of the fractional drops to the nearest lower
extremum on each side, normalized by the threshold and capped at `1`. -/
def find_peaks_raw (cfg : SRConfig) (data : List ℚ) : List (ℚ × ℚ) :=
  let w := cfg.window_size
  (List.range' w (data.length - 2 * w)).filterMap fun i =>
    let di := data.getD i 0
    if di = listMax (pyslice data (i - w) (i + w + 1)) then
      let left_diff := (di - listMin (pyslice data (i - w) i)) / di
      let right_diff := (di - listMin (pyslice data (i + 1) (i + w + 1))) / di
      let strength := min left_diff right_diff / cfg.threshold
      if strength > 0 then some (di, min strength 1) else none
    else none

/-- `SupportResistanceDetector._find_troughs` before clustering (the mirror
of `find_peaks_raw` on lows, with rises instead of drops). -/
def find_troughs_raw (cfg : SRConfig) (data : List ℚ) : List (ℚ × ℚ) :=
  let w := cfg.window_size
  (List.range' w (data.length - 2 * w)).filterMap fun i =>
    let di := data.getD i 0
    if di = listMin (pyslice data (i - w) (i + w + 1)) then
      let left_diff := (listMax (pyslice data (i - w) i) - di) / di
      let right_diff := (listMax (pyslice data (i + 1) (i + w + 1)) - di) / di
      let strength := min left_diff right_diff / cfg.threshold
      if strength > 0 then some (di, min strength 1) else none
    else none

/-- Arithmetic mean of a cluster's prices and strengths
(`_cluster_levels`'s cluster post-processing). -/
def clusterAvg (cluster : List (ℚ × ℚ)) : ℚ × ℚ :=
  (listSum (cluster.map Prod.fst) / (cluster.length : ℚ),
   listSum (cluster.map Prod.snd) / (cluster.length : ℚ))

/-- The scan inside `SupportResistanceDetector._cluster_levels`: walk the
price-sorted levels, comparing each entry with its predecessor in the sorted
order (`sorted_levels[i-1]`), closing the running cluster whenever the
relative price gap reaches `threshold / 2`. -/
def clusterGo (thr : ℚ) (prev : ℚ × ℚ) (cluster : List (ℚ × ℚ)) :
    List (ℚ × ℚ) → List (ℚ × ℚ)
  | [] => [clusterAvg cluster]
  | cur :: rest =>
    if |cur.1 - prev.1| / prev.1 < thr / 2 then
      clusterGo thr cur (cluster ++ [cur]) rest
    else
      clusterAvg cluster :: clusterGo thr cur [cur] rest

/-- `SupportResistanceDetector._cluster_levels`: sort by price (stably) and
merge adjacent near-equal prices into averaged levels. -/
def cluster_levels (thr : ℚ) (levels : List (ℚ × ℚ)) : List (ℚ × ℚ) :=
  match sortByAsc Prod.fst levels with
  | [] => []
  | first :: rest => clusterGo thr first [first] rest

/-- The `PriceLevel` construction loop of `SupportResistanceDetector.execute`:
keep clustered levels whose strength reaches `min_strength`, tagging each
with `level_type` `ty` and creation time `now`. -/
def mkLevels (now : ℕ) (min_strength : ℚ) (ty : String)
    (raw : List (ℚ × ℚ)) : List PriceLevel :=
  raw.filterMap fun ps =>
    if min_strength ≤ ps.2 then
      some { price := ps.1, level_type := ty, strength := ps.2,
             created_at := now }
    else none

/-- `SupportResistanceDetector.execute` at clock `now`: fewer than
`2 * window_size` bars yield an empty level set; otherwise peaks of the highs
and troughs of the lows are clustered, filtered by strength, sorted by
strength descending (stably) and truncated to `max_levels`. -/
def sr_execute (cfg : SRConfig) (now : ℕ) (input : PriceData) : LevelData :=
  if input.bars.length < cfg.window_size * 2 then
    { symbol := input.symbol, timeframe := input.timeframe, levels := [],
      last_updated := now }
  else
    let highs := input.bars.map PriceBar.high
    let lows := input.bars.map PriceBar.low
    let resistance_levels := cluster_levels cfg.threshold (find_peaks_raw cfg highs)
    let support_levels := cluster_levels cfg.threshold (find_troughs_raw cfg lows)
    let levels := mkLevels now cfg.min_strength "resistance" resistance_levels
      ++ mkLevels now cfg.min_strength "support" support_levels
    { symbol := input.symbol, timeframe := input.timeframe,
      levels := (sortByDesc PriceLevel.strength levels).take cfg.max_levels,
      last_updated := now }

/-! ## Breakout signal generator (`modules/signal_generation/breakout_signal.py`) -/

/-- `BreakoutSignalGenerator` configuration (constructor defaults). -/
structure BKConfig where
  min_level_strength : ℚ := 0.7
  confirmation_candles : ℕ := 1
  signal_expiry_minutes : ℕ := 60
  min_volume_ratio : ℚ := 1.2
deriving DecidableEq, Repr

/-- The bars preceding the confirmation window, `recent_bars[:-confirmation_candles]`
(Python's `[:-0]` is the empty slice). -/
def bkBefore (cfg : BKConfig) (recent_bars : List PriceBar) : List PriceBar :=
  if cfg.confirmation_candles = 0 then []
  else recent_bars.take (recent_bars.length - cfg.confirmation_candles)

/-- The confirmation window, `recent_bars[-confirmation_candles:]`
(Python's `[-0:]` is the whole list). -/
def bkAfter (cfg : BKConfig) (recent_bars : List PriceBar) : List PriceBar :=
  if cfg.confirmation_candles = 0 then recent_bars
  else recent_bars.drop (recent_bars.length - cfg.confirmation_candles)

/-- The per-level breakout check of `BreakoutSignalGenerator.execute`:
`none` when the level does not fire, otherwise the emitted signal. -/
def bkSignalFor (cfg : BKConfig) (now : ℕ) (symbol : String) (avg_volume : ℚ)
    (recent_bars : List PriceBar) (level : PriceLevel) : Option SignalData :=
  let last_bar := recent_bars.getLastD default
  let volume_increased := last_bar.volume > avg_volume * cfg.min_volume_ratio
  if level.level_type = "resistance" then
    let was_below := (bkBefore cfg recent_bars).all fun b =>
      decide (b.close < level.price)
    let is_above := (bkAfter cfg recent_bars).all fun b =>
      decide (b.close > level.price)
    if was_below ∧ is_above ∧ volume_increased then
      some { symbol := symbol, signal_type := .ENTRY_LONG,
             price := last_bar.close, timestamp := now,
             expiration := some (now + cfg.signal_expiry_minutes),
             confidence := level.strength,
             metadata := { level_price := some level.price,
                           level_type := some level.level_type,
                           breakout_bar := some last_bar.timestamp } }
    else none
  else if level.level_type = "support" then
    let was_above := (bkBefore cfg recent_bars).all fun b =>
      decide (b.close > level.price)
    let is_below := (bkAfter cfg recent_bars).all fun b =>
      decide (b.close < level.price)
    if was_above ∧ is_below ∧ volume_increased then
      some { symbol := symbol, signal_type := .ENTRY_SHORT,
             price := last_bar.close, timestamp := now,
             expiration := some (now + cfg.signal_expiry_minutes),
             confidence := level.strength,
             metadata := { level_price := some level.price,
                           level_type := some level.level_type,
                           breakout_bar := some last_bar.timestamp } }
    else none
  else none

/-- `BreakoutSignalGenerator.execute` at clock `now`: filter the levels by
strength, compute the average volume (last 20 bars, or all bars when fewer),
take the last `confirmation_candles + 2` bars and emit one signal per firing
level, in level order. -/
def bk_execute (cfg : BKConfig) (now : ℕ) (price_data : Option PriceData)
    (level_data : Option LevelData) : List SignalData :=
  match price_data, level_data with
  | some pd, some ld =>
    if pd.bars.isEmpty ∨ ld.levels.isEmpty then []
    else
      let strong_levels := ld.levels.filter fun level =>
        decide (level.strength ≥ cfg.min_level_strength)
      if strong_levels.isEmpty then []
      else
        let volumes := pd.bars.map PriceBar.volume
        let avg_volume :=
          if pd.bars.length ≥ 20 then
            listSum (volumes.drop (volumes.length - 20)) / 20
          else listSum volumes / (volumes.length : ℚ)
        let recent_bars := pd.bars.drop
          (pd.bars.length - (cfg.confirmation_candles + 2))
        if recent_bars.length < cfg.confirmation_candles + 2 then []
        else
          strong_levels.filterMap
            (bkSignalFor cfg now pd.symbol avg_volume recent_bars)
  | _, _ => []

/-! ## Timestamp erasure

`datetime.now()` is the one implicit input of the detector and the signal
generator; erasing the fields it feeds exposes the part of the output that
is a pure function of series, levels and configuration. -/

/-- A `PriceLevel` without its creation timestamp. -/
def erasePriceLevel (l : PriceLevel) : ℚ × String × ℚ :=
  (l.price, l.level_type, l.strength)

/-- A `LevelData` without its timestamps. -/
def eraseLevelData (ld : LevelData) : String × String × List (ℚ × String × ℚ) :=
  (ld.symbol, ld.timeframe, ld.levels.map erasePriceLevel)

/-- A `SignalData` without its creation and expiration timestamps (its
`breakout_bar` metadata is a bar timestamp taken from the input, not from
the clock, and is kept). -/
def eraseSignal (s : SignalData) : String × SignalType × ℚ × ℚ × SignalMeta :=
  (s.symbol, s.signal_type, s.price, s.confidence, s.metadata)

/-! ## Helper lemmas -/

theorem get_trigger_threshold_pos (asset_type : String) :
    0 < get_trigger_threshold asset_type := by
  unfold get_trigger_threshold
  split_ifs <;> norm_num

theorem dcaFind_none_of_lb (lvls : List ℚ) (p lb θ : ℚ)
    (h : ¬ p < lb * (1 - θ)) : dcaFind lvls p lb θ = none := by
  induction lvls with
  | nil => rfl
  | cons L rest ih =>
    unfold dcaFind
    rw [if_neg fun hc => h hc.2]
    exact ih

theorem dcaFind_eq_find? (lvls : List ℚ) (p lb θ : ℚ) :
    dcaFind lvls p lb θ =
      lvls.find? fun L => decide (p ≤ L ∧ p < lb * (1 - θ)) := by
  induction lvls with
  | nil => rfl
  | cons L rest ih =>
    unfold dcaFind
    by_cases hc : p ≤ L ∧ p < lb * (1 - θ)
    · simp [List.find?, hc]
    · simp [List.find?, hc, ih]

theorem rm_asset_config_pos (asset_type : String) :
    0 < (rm_asset_config asset_type).min_price ∧
    0 < (rm_asset_config asset_type).target_rr_ratio ∧
    0 < (rm_asset_config asset_type).risk_per_trade := by
  unfold rm_asset_config
  split_ifs <;> norm_num

/-- For a long entry the pre-clamp stop always sits at least the class's
minimum stop distance below the reference price. -/
theorem rm_stop_loss_long_le (sg : SignalData) (a : ℚ) (asset_type : String)
    (h : sg.signal_type = .ENTRY_LONG) :
    rm_stop_loss sg a asset_type ≤
      sg.price - (if asset_type = "crypto" then sg.price * 0.02
                  else sg.price * 0.01) := by
  simp only [rm_stop_loss, h]
  split_ifs <;> linarith

/-- For a short entry the pre-clamp stop always sits at least the class's
minimum stop distance above the reference price. -/
theorem rm_stop_loss_short_ge (sg : SignalData) (a : ℚ) (asset_type : String)
    (h : sg.signal_type = .ENTRY_SHORT) :
    sg.price + (if asset_type = "crypto" then sg.price * 0.02
                else sg.price * 0.01) ≤ rm_stop_loss sg a asset_type := by
  simp only [rm_stop_loss, h]
  split_ifs <;> linarith

/-! ## Claim C9 -/

/-- C9: for every `PriceBar`, after construction (including the
`__post_init__` auto-correction) `high ≥ max(open, close)` and
`low ≤ min(open, close)` hold; a violating bar is corrected by widening
`high`/`low` to the enclosing extremum — the constructor is total
(never rejects) and only ever widens the `[low, high]` range. -/
theorem mkPriceBar_ohlc_invariant (t : ℕ) (o h l c v : ℚ) :
    max o c ≤ (mkPriceBar t o h l c v).high ∧
    (mkPriceBar t o h l c v).low ≤ min o c ∧
    h ≤ (mkPriceBar t o h l c v).high ∧
    (mkPriceBar t o h l c v).low ≤ l ∧
    (mkPriceBar t o h l c v).open_ = o ∧
    (mkPriceBar t o h l c v).close = c := by
  unfold mkPriceBar
  split_ifs with hviol
  · refine ⟨?_, ?_, ?_, ?_, rfl, rfl⟩
    · exact max_le (le_max_left o _)
        (le_max_of_le_right (le_max_of_le_right (le_max_right l c)))
    · exact le_min (min_le_left o _)
        (le_trans (min_le_right o _)
          (le_trans (min_le_right _ _) (min_le_right l c)))
    · exact le_max_of_le_right (le_max_left h _)
    · exact le_trans (min_le_right o _)
        (le_trans (min_le_right _ _) (min_le_left l c))
  · push_neg at hviol
    exact ⟨hviol.1, hviol.2, le_refl _, le_refl _, rfl, rfl⟩

/-! ## Claim C2 -/

/-- C2 counterexample: with entry price `100`, `drawdown_pct = 5`, three
levels and the stock class, `generate_dca_levels` returns `[94, 88, 82]` —
the second and third levels are `88` and `82`, not `87.2` and `79.6` as the
claim's value list states (its own formula `100*(1 - 5*(i+1)*1.2/100)` also
gives `88` and `82`). -/
theorem generate_dca_levels_scenario_cex :
    generate_dca_levels 100 5 3 "stock" = [94, 88, 82] ∧
    generate_dca_levels 100 5 3 "stock" ≠ [94, 87.2, 79.6] ∧
    (generate_dca_levels 100 5 3 "stock").getD 1 0 ≠ 87.2 ∧
    (generate_dca_levels 100 5 3 "stock").getD 2 0 ≠ 79.6 := by
  have hr : List.range (Int.toNat 3) = [0, 1, 2] := rfl
  norm_num [generate_dca_levels, dca_precision, dca_multiplier, pyround,
    pyroundInt, hr]

/-- C2 amended: with entry price `100`, `drawdown_pct = 5`, three levels and
the stock class (multiplier `1.2`), `generate_dca_levels` returns
`[94.0, 88.0, 82.0]`, each level equal to `100*(1 - 5*(i+1)*1.2/100)` for
`i = 0, 1, 2`. -/
theorem generate_dca_levels_scenario :
    generate_dca_levels 100 5 3 "stock" = [94, 88, 82] ∧
    (94 : ℚ) = 100 * (1 - 5 * (0 + 1) * 1.2 / 100) ∧
    (88 : ℚ) = 100 * (1 - 5 * (1 + 1) * 1.2 / 100) ∧
    (82 : ℚ) = 100 * (1 - 5 * (2 + 1) * 1.2 / 100) := by
  have hr : List.range (Int.toNat 3) = [0, 1, 2] := rfl
  refine ⟨?_, by norm_num, by norm_num, by norm_num⟩
  norm_num [generate_dca_levels, dca_precision, dca_multiplier, pyround,
    pyroundInt, hr]

/-! ## Claim C3 -/

/-- The crypto patterns of `_get_asset_type` / `_detect_asset_type`:
a `-USD`/`USD` suffix or a known crypto ticker. -/
def isCryptoSymbol (s : String) : Bool :=
  pyEndsWith (pyUpper s) "-USD" || pyEndsWith (pyUpper s) "USD"
    || decide (pyUpper s ∈ cryptoTickers)

/-- The first forex pattern of `_get_asset_type` / `_detect_asset_type`:
the symbol contains `=`, or has exactly six characters, none a digit. -/
def isForexSymbol (s : String) : Bool :=
  pyContainsChar s '=' || (decide (pyLength s = 6) && !pyAnyDigit s)

/-- C3 counterexample: the crypto check runs before the forex check, so the
six-letter alphabetic currency pairs `EURUSD` and `XAUUSD` (both ending in
`USD`) are classified `crypto`, not `forex`, by both copies of the
classifier. -/
theorem get_asset_type_six_letter_cex :
    get_asset_type "EURUSD" = "crypto" ∧
    get_asset_type "EURUSD" ≠ "forex" ∧
    get_asset_type "XAUUSD" = "crypto" ∧
    rm_detect_asset_type "EURUSD" = "crypto" := by decide

/-- C3 amended: auto-detection classifies crypto first — any symbol with a
`-USD`/`USD` suffix or a known crypto ticker is `crypto`, even a six-letter
alphabetic pair; among the remaining symbols, one containing `=`, or six
characters long with no digit, is `forex` (and a remaining `=X`-suffixed
symbol would also be `forex`); everything else is `stock`.
`RiskManager._detect_asset_type` agrees with
`MartingaleDCAStrategy._get_asset_type` on every symbol. -/
theorem get_asset_type_spec (s : String) :
    (isCryptoSymbol s = true → get_asset_type s = "crypto") ∧
    (isCryptoSymbol s = false → isForexSymbol s = true →
      get_asset_type s = "forex") ∧
    (isCryptoSymbol s = false → isForexSymbol s = false →
      pyEndsWith (pyUpper s) "=X" = false → get_asset_type s = "stock") ∧
    rm_detect_asset_type s = get_asset_type s := by
  refine ⟨?_, ?_, ?_, rfl⟩
  · intro h
    unfold isCryptoSymbol at h
    unfold get_asset_type
    rcases Bool.or_eq_true_iff.mp h with h12 | h3
    · simp [h12]
    · by_cases h12 : (pyEndsWith (pyUpper s) "-USD"
          || pyEndsWith (pyUpper s) "USD") = true
      · simp [h12]
      · simp only [Bool.not_eq_true] at h12
        simp [h12, of_decide_eq_true h3]
  · intro hc hf
    unfold isCryptoSymbol at hc
    unfold isForexSymbol at hf
    obtain ⟨h12, h3⟩ := Bool.or_eq_false_iff.mp hc
    unfold get_asset_type
    simp [h12, of_decide_eq_false h3, hf]
  · intro hc hf hx
    unfold isCryptoSymbol at hc
    unfold isForexSymbol at hf
    obtain ⟨h12, h3⟩ := Bool.or_eq_false_iff.mp hc
    unfold get_asset_type
    simp [h12, of_decide_eq_false h3, hf, hx]

/-- C3 witness: `GBPJPY` is a six-letter alphabetic pair that matches no
crypto pattern, and the classifier sends it to `forex`. -/
theorem get_asset_type_spec_witness :
    isCryptoSymbol "GBPJPY" = false ∧ isForexSymbol "GBPJPY" = true ∧
    get_asset_type "GBPJPY" = "forex" :=
  ⟨by decide, by decide,
   (get_asset_type_spec "GBPJPY").2.1 (by decide) (by decide)⟩

/-! ## Claim C5 -/

/-- Rounding to `p` decimal places preserves strict order across a gap of
more than one unit in the last place. -/
theorem pyround_lt_pyround (x y : ℚ) (p : ℕ) (h : x * 10 ^ p + 1 < y * 10 ^ p) :
    pyround x p < pyround y p := by
  unfold pyround
  have h10 : (0 : ℚ) < 10 ^ p := by positivity
  have h1 := pyroundInt_le (x * 10 ^ p)
  have h2 := le_pyroundInt (y * 10 ^ p)
  have hlt : (pyroundInt (x * 10 ^ p) : ℚ) < pyroundInt (y * 10 ^ p) := by
    linarith
  rw [div_lt_div_iff h10 h10]
  exact mul_lt_mul_of_pos_right hlt h10

/-- Rounding to `p` decimal places stays strictly below any bound that is
more than one unit in the last place above the value. -/
theorem pyround_lt_bound (x e : ℚ) (p : ℕ) (h : x * 10 ^ p + 1 < e * 10 ^ p) :
    pyround x p < e := by
  unfold pyround
  have h10 : (0 : ℚ) < 10 ^ p := by positivity
  have h1 := pyroundInt_le (x * 10 ^ p)
  rw [div_lt_iff h10]
  linarith

/-- C5 counterexample: with entry price `100`, `drawdown_pct = 1/1000`
(positive), two levels and the stock class, rounding to the class's two
decimal places sends both levels to `100.00`, so the returned list is
neither strictly decreasing nor strictly below the entry price. -/
theorem generate_dca_levels_rounding_cex :
    generate_dca_levels 100 (1/1000) 2 "stock" = [100, 100] ∧
    (0 : ℚ) < 100 ∧ (0 : ℚ) < 1/1000 ∧ (1 : ℤ) ≤ 2 ∧
    ¬ ((generate_dca_levels 100 (1/1000) 2 "stock").Chain' (· > ·) ∧
        ∀ x ∈ generate_dca_levels 100 (1/1000) 2 "stock", x < 100) := by
  have hr : List.range (Int.toNat 2) = [0, 1] := rfl
  have h : generate_dca_levels 100 (1/1000) 2 "stock" = [100, 100] := by
    norm_num [generate_dca_levels, dca_precision, dca_multiplier, pyround,
      pyroundInt, hr]
  refine ⟨h, by norm_num, by norm_num, by norm_num, ?_⟩
  rw [h]
  rintro ⟨-, hall⟩
  exact lt_irrefl _ (hall 100 (by simp))

/-- C5 amended: for every entry price `> 0`, drawdown percentage `> 0`,
level count and asset class, **provided** the per-level price decrement
`entry_price * drawdown_pct * multiplier / 100` exceeds one unit in the
class's last decimal place (`10^(-precision)`), the list returned by
`generate_dca_levels` is strictly decreasing and every level is strictly
below the entry price.  (The counterexample shows the proviso is needed:
rounding can fuse levels whose spacing is below the representable step.) -/
theorem generate_dca_levels_strict_anti (entry_price drawdown_pct : ℚ)
    (levels : ℤ) (asset_type : String)
    (hentry : 0 < entry_price) (hdd : 0 < drawdown_pct)
    (hstep : (1 : ℚ) / 10 ^ dca_precision asset_type
      < entry_price * drawdown_pct * dca_multiplier asset_type / 100) :
    (generate_dca_levels entry_price drawdown_pct levels
      asset_type).Chain' (· > ·) ∧
    ∀ x ∈ generate_dca_levels entry_price drawdown_pct levels asset_type,
      x < entry_price := by
  set p := dca_precision asset_type with hp
  set m := dca_multiplier asset_type with hm
  have h10 : (0 : ℚ) < 10 ^ p := by positivity
  set S : ℚ := entry_price * drawdown_pct * m / 100 * 10 ^ p with hS
  have hS1 : 1 < S := by rw [hS]; exact (div_lt_iff h10).mp hstep
  constructor
  · cases hk : levels.toNat with
    | zero => simp [generate_dca_levels, hk]
    | succ n =>
      simp only [generate_dca_levels, hk, ← hp, ← hm]
      rw [List.chain'_map, List.chain'_range_succ]
      intro i hi
      show pyround _ p < pyround _ p
      apply pyround_lt_pyround
      push_cast
      have hexp : entry_price * (1 - drawdown_pct * ((i : ℚ) + 1 + 1) * m / 100)
            * 10 ^ p + 1 -
          entry_price * (1 - drawdown_pct * ((i : ℚ) + 1) * m / 100) * 10 ^ p
          = 1 - S := by
        rw [hS]; ring
      linarith
  · intro x hx
    simp only [generate_dca_levels, List.mem_map, List.mem_range, ← hp,
      ← hm] at hx
    obtain ⟨i, _, rfl⟩ := hx
    apply pyround_lt_bound
    have hi0 : (0 : ℚ) ≤ (i : ℚ) := Nat.cast_nonneg i
    have hSi : 0 ≤ S * (i : ℚ) := mul_nonneg (by linarith) hi0
    have hexp : entry_price * (1 - drawdown_pct * ((i : ℚ) + 1) * m / 100)
          * 10 ^ p + 1 - entry_price * 10 ^ p = 1 - S - S * (i : ℚ) := by
      rw [hS]; ring
    linarith

/-- C5 witness: the standard stock scenario (entry `100`, drawdown `5`,
three levels) satisfies the spacing proviso, and its levels `[94, 88, 82]`
are strictly decreasing and below the entry price. -/
theorem generate_dca_levels_strict_anti_witness :
    (0 : ℚ) < 100 ∧ (0 : ℚ) < 5 ∧
    ((generate_dca_levels 100 5 3 "stock").Chain' (· > ·) ∧
      ∀ x ∈ generate_dca_levels 100 5 3 "stock", x < 100) :=
  ⟨by norm_num, by norm_num,
   generate_dca_levels_strict_anti 100 5 3 "stock" (by norm_num) (by norm_num)
     (by norm_num [dca_precision, dca_multiplier])⟩

/-! ## Claim C6 -/

/-- A hit returned by the DCA-level scan satisfies its trigger condition. -/
theorem dcaFind_some (lvls : List ℚ) (p lb θ L : ℚ)
    (h : dcaFind lvls p lb θ = some L) : p ≤ L ∧ p < lb * (1 - θ) := by
  induction lvls with
  | nil => simp [dcaFind] at h
  | cons x rest ih =>
    unfold dcaFind at h
    split_ifs at h with hc
    · obtain rfl := Option.some.inj h
      exact hc
    · exact ih h

/-- C6: a single `MartingaleDCAStrategy.execute` call emits at most one
DCA-leg signal; when one is emitted the symbol is tracked, armed and in a
position, the signal's price is the first level (in ascending level-index
order) for which the current price qualifies, and the trigger condition
`price ≤ level ∧ price < last_buy_price * (1 - threshold)` holds there,
with thresholds `0.05`/`0.03`/`0.02` for stock/crypto/forex. -/
theorem dcaExecute_single_dca_leg (eqs : Equities) (symbol : Option String)
    (current_price : ℚ) (now : ℕ) (s : SignalData)
    (hs : s ∈ (dcaExecute eqs symbol current_price now).1)
    (hdca : s.metadata.order_type = some "dca_level") :
    ((dcaExecute eqs symbol current_price now).1.filter
      fun t => decide (t.metadata.order_type = some "dca_level")).length ≤ 1 ∧
    get_trigger_threshold "stock" = 0.05 ∧
    get_trigger_threshold "crypto" = 0.03 ∧
    get_trigger_threshold "forex" = 0.02 ∧
    ∃ sym ed, symbol = some sym ∧ List.lookup sym eqs = some ed ∧
      ed.system_on.getD false = true ∧ ed.has_position.getD false = true ∧
      (generate_dca_levels (ed.entry_price.getD current_price)
          (ed.drawdown_pct.getD 5) (ed.levels.getD 5)
          (ed.asset_type.getD "stock")).find?
        (fun L => decide (current_price ≤ L ∧ current_price <
          ed.last_buy_price.getD (ed.entry_price.getD current_price) *
            (1 - get_trigger_threshold (ed.asset_type.getD "stock")))) =
        some s.price ∧
      current_price ≤ s.price ∧
      current_price <
        ed.last_buy_price.getD (ed.entry_price.getD current_price) *
          (1 - get_trigger_threshold (ed.asset_type.getD "stock")) := by
  cases symbol with
  | none => simp [dcaExecute] at hs
  | some sym =>
    by_cases h1 : sym = ""
    · simp [dcaExecute, h1] at hs
    by_cases h2 : current_price ≤ 0
    · simp [dcaExecute, h1, h2] at hs
    have hcp : 0 < current_price := lt_of_not_le h2
    cases hlk : List.lookup sym eqs with
    | none => simp [dcaExecute, h1, h2, hlk] at hs
    | some ed0 =>
      by_cases hsys : ed0.system_on.getD false = true
      case neg => simp [dcaExecute, h1, h2, hlk, hsys] at hs
      case pos =>
      by_cases hpos : ed0.has_position.getD false = true
      · -- in a position: only the DCA-level scan can fire
        rcases hdf : dcaFind
            (generate_dca_levels (ed0.entry_price.getD current_price)
              (ed0.drawdown_pct.getD 5) (ed0.levels.getD 5)
              (ed0.asset_type.getD "stock")) current_price
            (ed0.last_buy_price.getD (ed0.entry_price.getD current_price))
            (get_trigger_threshold (ed0.asset_type.getD "stock"))
          with _ | L
        · simp [dcaExecute, h1, h2, hlk, hsys, hpos, hdf] at hs
        · simp only [dcaExecute, if_neg h1, if_neg h2, hlk, if_pos hsys,
            if_pos hpos, hdf] at hs ⊢
          simp only [List.mem_singleton] at hs
          subst hs
          obtain ⟨hle, hlt⟩ := dcaFind_some _ _ _ _ _ hdf
          refine ⟨by simp [dcaLegSignal], rfl, rfl, rfl, sym, ed0, rfl, hlk,
            hsys, hpos, ?_, hle, hlt⟩
          rw [← dcaFind_eq_find?]
          exact hdf
      · -- initial entry just placed: the scan cannot fire in the same call
        exfalso
        have hθ := get_trigger_threshold_pos (ed0.asset_type.getD "stock")
        have hmul : 0 < current_price *
            get_trigger_threshold (ed0.asset_type.getD "stock") :=
          mul_pos hcp hθ
        have hlt : current_price *
            (1 - get_trigger_threshold (ed0.asset_type.getD "stock")) <
            current_price := by nlinarith
        have hnone := dcaFind_none_of_lb
          (generate_dca_levels current_price (ed0.drawdown_pct.getD 5)
            (ed0.levels.getD 5) (ed0.asset_type.getD "stock"))
          current_price current_price
          (get_trigger_threshold (ed0.asset_type.getD "stock"))
          (fun hcon => absurd hcon (not_lt_of_le (le_of_lt hlt)))
        simp only [dcaExecute, if_neg h1, if_neg h2, hlk, if_pos hsys,
          if_neg hpos, Option.getD_some, hnone, List.mem_singleton] at hs
        subst hs
        simp [initialSignal] at hdca

/-- An armed, in-position stock `EquityState` used to witness the DCA-leg
path (entry `100`, drawdown `5`, three levels, one prior fill). -/
def dcaArmedState : EquityState :=
  { system_on := some true, has_position := some true,
    asset_type := some "stock", entry_price := some 100,
    last_buy_price := some 100, drawdown_pct := some 5, levels := some 3,
    position_count := some 1 }

/-- C6 witness: at price `90` the armed state's levels are `[94, 88, 82]`;
the call emits exactly the DCA-leg signal at the first qualifying level
`94`, and the trigger condition holds (`90 < 100 * 0.95`). -/
theorem dcaExecute_single_dca_leg_witness :
    ((dcaExecute [("AAPL", dcaArmedState)] (some "AAPL") 90 7).1.filter
      fun t => decide (t.metadata.order_type = some "dca_level")).length ≤ 1 ∧
    ∃ sym ed, (some "AAPL" : Option String) = some sym ∧
      List.lookup sym [("AAPL", dcaArmedState)] = some ed ∧
      ed.system_on.getD false = true ∧ ed.has_position.getD false = true ∧
      (generate_dca_levels (ed.entry_price.getD 90) (ed.drawdown_pct.getD 5)
          (ed.levels.getD 5) (ed.asset_type.getD "stock")).find?
        (fun L => decide ((90 : ℚ) ≤ L ∧ (90 : ℚ) <
          ed.last_buy_price.getD (ed.entry_price.getD 90) *
            (1 - get_trigger_threshold (ed.asset_type.getD "stock")))) =
        some (dcaLegSignal "AAPL" 94 2 "stock" 7).price ∧
      (90 : ℚ) ≤ (dcaLegSignal "AAPL" 94 2 "stock" 7).price ∧
      (90 : ℚ) < ed.last_buy_price.getD (ed.entry_price.getD 90) *
          (1 - get_trigger_threshold (ed.asset_type.getD "stock")) := by
  have h := dcaExecute_single_dca_leg [("AAPL", dcaArmedState)] (some "AAPL")
    90 7 (dcaLegSignal "AAPL" 94 2 "stock" 7)
    (by
      have hr3 : List.range (Int.toNat 3) = [0, 1, 2] := rfl
      have hne : "AAPL" ≠ "" := by decide
      norm_num [dcaExecute, dcaArmedState, List.lookup, dcaFind,
        generate_dca_levels, dca_precision, dca_multiplier, pyround,
        pyroundInt, get_trigger_threshold, dcaLegSignal, hr3, hne])
    rfl
  exact ⟨h.1, h.2.2.2.2⟩

/-! ## Claim C10 -/

/-- C10: `MartingaleDCAStrategy.execute` with a missing/empty symbol, a
non-positive price, an untracked symbol, or a tracked symbol whose system is
off, returns no signals, leaves the equities map untouched, and performs no
save. -/
theorem dcaExecute_noop (eqs : Equities) (symbol : Option String)
    (current_price : ℚ) (now : ℕ)
    (h : symbol = none ∨ symbol = some "" ∨ current_price ≤ 0 ∨
      (∃ sym, symbol = some sym ∧ List.lookup sym eqs = none) ∨
      (∃ sym ed, symbol = some sym ∧ List.lookup sym eqs = some ed ∧
        ed.system_on.getD false = false)) :
    dcaExecute eqs symbol current_price now = ([], eqs, 0) := by
  rcases h with rfl | rfl | h | ⟨sym, rfl, hlk⟩ | ⟨sym, ed, rfl, hlk, hsys⟩
  · rfl
  · simp [dcaExecute]
  · cases symbol with
    | none => rfl
    | some sym =>
      by_cases h1 : sym = ""
      · simp [dcaExecute, h1]
      · simp [dcaExecute, h1, h]
  · by_cases h1 : sym = ""
    · simp [dcaExecute, h1]
    · by_cases h2 : current_price ≤ 0
      · simp [dcaExecute, h1, h2]
      · simp [dcaExecute, h1, h2, hlk]
  · by_cases h1 : sym = ""
    · simp [dcaExecute, h1]
    · by_cases h2 : current_price ≤ 0
      · simp [dcaExecute, h1, h2]
      · simp [dcaExecute, h1, h2, hlk, hsys]

/-- A tracked but switched-off `EquityState`. -/
def dcaOffState : EquityState := { system_on := some false }

/-- C10 witness: a tracked symbol with `system_on = false` is left
completely unchanged by an `execute` call at a positive price. -/
theorem dcaExecute_noop_witness :
    dcaExecute [("TSLA", dcaOffState)] (some "TSLA") 50 0 =
      ([], [("TSLA", dcaOffState)], 0) :=
  dcaExecute_noop _ _ _ _
    (Or.inr (Or.inr (Or.inr (Or.inr ⟨"TSLA", dcaOffState, rfl, rfl, rfl⟩))))

/-! ## Claim C1 -/

/-- A plain long stock signal at price `100` with empty metadata. -/
def c1Signal : SignalData :=
  { symbol := "AAPL", signal_type := .ENTRY_LONG, price := 100,
    timestamp := 0 }

/-- A one-bar series whose huge range (`high - low = 300`) makes the
ATR-based stop so wide that the computed share count truncates to zero. -/
def c1Data : PriceData :=
  { symbol := "AAPL", timeframe := "1d",
    bars := [mkPriceBar 0 100 300 0 100 0] }

/-- C1 counterexample: with a present signal and non-empty price series
whose sized position (`rm_sized ... < 10`) falls below the $10 minimum,
`RiskManager.execute` does **not** return `None`: it returns a
`RiskParameters` whose `position_size` is the `0` sentinel. -/
theorem rm_execute_below_min_cex :
    rm_execute 10000 (some c1Signal) (some c1Data) =
      some { position_size := 0, stop_loss_price := 1/100,
             take_profit_price := some 1000, trailing_stop := true,
             trailing_stop_distance := some 300,
             max_drawdown := some (1/20) } ∧
    rm_sized 10000 c1Signal c1Data.bars < 10 ∧
    rm_execute 10000 (some c1Signal) (some c1Data) ≠ none := by
  have hat : rm_detect_asset_type "AAPL" = "stock" := by decide
  have hne1 : "stock" ≠ "crypto" := by decide
  have hne2 : "stock" ≠ "forex" := by decide
  have hexec : rm_execute 10000 (some c1Signal) (some c1Data) =
      some (rm_result 10000 c1Signal c1Data.bars) := by
    simp only [rm_execute]
    rw [if_neg (by simp [c1Data] : ¬(c1Data.bars.isEmpty = true))]
  have hres : rm_result 10000 c1Signal c1Data.bars =
      { position_size := 0, stop_loss_price := 1/100,
        take_profit_price := some 1000, trailing_stop := true,
        trailing_stop_distance := some 300,
        max_drawdown := some (1/20) } := by
    norm_num [rm_result, rm_take_profit, rm_stop_loss, rm_sized,
      rm_resolved_asset, rm_asset_config, atr, c1Signal, c1Data, mkPriceBar,
      truncQ, hat, hne1, hne2, listSum]
  have hsz : rm_sized 10000 c1Signal c1Data.bars < 10 := by
    norm_num [rm_sized, rm_stop_loss, rm_resolved_asset, rm_asset_config,
      atr, c1Signal, c1Data, mkPriceBar, truncQ, hat, hne1, hne2, listSum]
  exact ⟨hexec.trans (by rw [hres]), hsz,
    by rw [hexec]; exact Option.some_ne_none _⟩

/-- C1 amended: `RiskManager.execute` returns `None` exactly when an input
is missing (absent signal, absent price data, or an empty bar list).  With
present inputs (and a positive reference price, below which the Python
source would raise `ZeroDivisionError` in the share conversion) it always
returns a `RiskParameters`; a zero price risk or a sized position below the
$10 minimum yields `position_size = 0` in that record — the "do not trade"
sentinel — rather than `None`. -/
theorem rm_execute_null_iff (account_size : ℚ) (signal : Option SignalData)
    (price_data : Option PriceData) :
    ((signal = none ∨ price_data = none ∨
        ∃ pd, price_data = some pd ∧ pd.bars = []) →
      rm_execute account_size signal price_data = none) ∧
    (∀ sg pd, signal = some sg → price_data = some pd → pd.bars ≠ [] →
      0 < sg.price →
      rm_execute account_size signal price_data =
        some (rm_result account_size sg pd.bars) ∧
      (rm_result account_size sg pd.bars).position_size =
        (if rm_sized account_size sg pd.bars < 10 then 0
         else rm_sized account_size sg pd.bars)) := by
  constructor
  · rintro (rfl | rfl | ⟨pd, rfl, hpd⟩)
    · cases price_data <;> rfl
    · cases signal <;> rfl
    · cases signal with
      | none => rfl
      | some sg => simp [rm_execute, hpd]
  · rintro sg pd rfl rfl hne _
    refine ⟨?_, rfl⟩
    simp only [rm_execute]
    rw [if_neg]
    simp [List.isEmpty_iff, hne]

/-- C1 witness: the below-minimum scenario instantiates the amended claim —
present inputs produce `some` record whose position size is the zero
sentinel. -/
theorem rm_execute_null_iff_witness :
    (c1Data.bars ≠ [] ∧ (0 : ℚ) < c1Signal.price) ∧
    rm_execute 10000 (some c1Signal) (some c1Data) =
      some (rm_result 10000 c1Signal c1Data.bars) ∧
    (rm_result 10000 c1Signal c1Data.bars).position_size =
      (if rm_sized 10000 c1Signal c1Data.bars < 10 then 0
       else rm_sized 10000 c1Signal c1Data.bars) := by
  have h := (rm_execute_null_iff 10000 (some c1Signal) (some c1Data)).2
    c1Signal c1Data rfl rfl (by norm_num [c1Data]) (by norm_num [c1Signal])
  exact ⟨⟨by norm_num [c1Data], by norm_num [c1Signal]⟩, h.1, h.2⟩

/-! ## Claim C4 -/

/-- A long signal on a sub-penny stock: the reference price `0.005` sits
below the stock class's minimum tradable price `0.01`. -/
def c4Signal : SignalData :=
  { symbol := "PENNY", signal_type := .ENTRY_LONG, price := 1/200,
    timestamp := 0 }

/-- A flat one-bar series at `0.005` (ATR `0`). -/
def c4Data : PriceData :=
  { symbol := "PENNY", timeframe := "1d",
    bars := [mkPriceBar 0 (1/200) (1/200) (1/200) (1/200) 0] }

/-- C4 counterexample: on a long signal with reference price `0.005`, the
minimum-price clamp pushes the stop-loss up to `0.01`, so the returned
(non-null) `RiskParameters` has `stop_loss_price > reference_price`,
violating the claimed ordering. -/
theorem rm_execute_long_stop_cex :
    rm_execute 10000 (some c4Signal) (some c4Data) =
      some { position_size := 1000, stop_loss_price := 1/100,
             take_profit_price := some (1/100), trailing_stop := true,
             trailing_stop_distance := some 0,
             max_drawdown := some (1/20) } ∧
    c4Signal.signal_type = .ENTRY_LONG ∧
    ¬ ((1 : ℚ)/100 < c4Signal.price) := by
  have hat : rm_detect_asset_type "PENNY" = "stock" := by decide
  have hne1 : "stock" ≠ "crypto" := by decide
  have hne2 : "stock" ≠ "forex" := by decide
  have hexec : rm_execute 10000 (some c4Signal) (some c4Data) =
      some (rm_result 10000 c4Signal c4Data.bars) := by
    simp only [rm_execute]
    rw [if_neg (by simp [c4Data] : ¬(c4Data.bars.isEmpty = true))]
  have hres : rm_result 10000 c4Signal c4Data.bars =
      { position_size := 1000, stop_loss_price := 1/100,
        take_profit_price := some (1/100), trailing_stop := true,
        trailing_stop_distance := some 0,
        max_drawdown := some (1/20) } := by
    norm_num [rm_result, rm_take_profit, rm_stop_loss, rm_sized,
      rm_resolved_asset, rm_asset_config, atr, c4Signal, c4Data, mkPriceBar,
      truncQ, hat, hne1, hne2, listSum, abs_eq_max_neg, inf_eq_min,
      min_def, max_def]
  exact ⟨hexec.trans (by rw [hres]), rfl, by norm_num [c4Signal]⟩

/-- C4 amended: for every non-null `RiskParameters` produced by
`RiskManager.execute`, **provided the reference price exceeds the resolved
asset class's minimum tradable price**: on a long signal
`stop_loss_price < reference_price` and the (always set) take-profit
satisfies `take_profit_price > reference_price`; on a short signal both
inequalities are reversed.  (The counterexample shows the proviso is
needed: below the class minimum price, the final clamp can push the stop
to the other side of the reference price.) -/
theorem rm_execute_stop_tp_ordering (account_size : ℚ) (sg : SignalData)
    (pd : PriceData) (rp : RiskParameters)
    (hmp : (rm_asset_config (rm_resolved_asset sg)).min_price < sg.price)
    (hrp : rm_execute account_size (some sg) (some pd) = some rp) :
    (sg.signal_type = .ENTRY_LONG →
      rp.stop_loss_price < sg.price ∧
      ∀ tp, rp.take_profit_price = some tp → sg.price < tp) ∧
    (sg.signal_type = .ENTRY_SHORT →
      sg.price < rp.stop_loss_price ∧
      ∀ tp, rp.take_profit_price = some tp → tp < sg.price) := by
  by_cases hbe : pd.bars.isEmpty = true
  · simp [rm_execute, hbe] at hrp
  obtain rfl : rp = rm_result account_size sg pd.bars := by
    simp only [rm_execute, if_neg hbe] at hrp
    exact (Option.some.inj hrp).symm
  have hcfg := rm_asset_config_pos (rm_resolved_asset sg)
  have hprice : 0 < sg.price := lt_trans hcfg.1 hmp
  have hms : 0 < (if rm_resolved_asset sg = "crypto" then sg.price * 0.02
      else sg.price * 0.01) := by
    split_ifs
    · exact mul_pos hprice (by norm_num)
    · exact mul_pos hprice (by norm_num)
  constructor
  · intro hlong
    have hstop := rm_stop_loss_long_le sg (atr pd.bars)
      (rm_resolved_asset sg) hlong
    constructor
    · simp only [rm_result]
      split_ifs with hcl
      · exact hmp
      · linarith
    · intro tp htp
      simp only [rm_result] at htp
      obtain rfl := (Option.some.inj htp).symm
      have hgap : 0 < sg.price -
          rm_stop_loss sg (atr pd.bars) (rm_resolved_asset sg) := by
        linarith
      have habs : |sg.price -
            rm_stop_loss sg (atr pd.bars) (rm_resolved_asset sg)| =
          sg.price - rm_stop_loss sg (atr pd.bars) (rm_resolved_asset sg) :=
        abs_of_pos hgap
      have hmul := mul_pos hgap hcfg.2.1
      have htp0 : sg.price < rm_take_profit sg
          |sg.price - rm_stop_loss sg (atr pd.bars) (rm_resolved_asset sg)|
          (rm_resolved_asset sg) := by
        simp only [rm_take_profit, hlong]
        rw [habs]
        linarith
      split_ifs with hcl
      · linarith
      · exact htp0
  · intro hshort
    have hstop := rm_stop_loss_short_ge sg (atr pd.bars)
      (rm_resolved_asset sg) hshort
    constructor
    · simp only [rm_result]
      split_ifs with hcl
      · linarith
      · linarith
    · intro tp htp
      simp only [rm_result] at htp
      obtain rfl := (Option.some.inj htp).symm
      have hgap : sg.price -
          rm_stop_loss sg (atr pd.bars) (rm_resolved_asset sg) < 0 := by
        linarith
      have habs : |sg.price -
            rm_stop_loss sg (atr pd.bars) (rm_resolved_asset sg)| =
          -(sg.price -
            rm_stop_loss sg (atr pd.bars) (rm_resolved_asset sg)) :=
        abs_of_neg hgap
      have hmul := mul_pos (show (0 : ℚ) <
          -(sg.price - rm_stop_loss sg (atr pd.bars) (rm_resolved_asset sg))
          by linarith) hcfg.2.1
      have htp0 : rm_take_profit sg
          |sg.price - rm_stop_loss sg (atr pd.bars) (rm_resolved_asset sg)|
          (rm_resolved_asset sg) < sg.price := by
        simp only [rm_take_profit, hshort]
        rw [habs]
        linarith
      split_ifs with hcl
      · exact hmp
      · exact htp0

/-- C4 witness: the wide-stop stock scenario (reference price `100`, well
above the `0.01` class minimum) instantiates the amended ordering claim for
its long signal. -/
theorem rm_execute_stop_tp_ordering_witness :
    (rm_asset_config (rm_resolved_asset c1Signal)).min_price <
      c1Signal.price ∧
    ((c1Signal.signal_type = .ENTRY_LONG →
      (rm_result 10000 c1Signal c1Data.bars).stop_loss_price <
        c1Signal.price ∧
      ∀ tp, (rm_result 10000 c1Signal c1Data.bars).take_profit_price =
          some tp → c1Signal.price < tp) ∧
     (c1Signal.signal_type = .ENTRY_SHORT →
      c1Signal.price <
        (rm_result 10000 c1Signal c1Data.bars).stop_loss_price ∧
      ∀ tp, (rm_result 10000 c1Signal c1Data.bars).take_profit_price =
          some tp → tp < c1Signal.price)) := by
  have hat : rm_detect_asset_type "AAPL" = "stock" := by decide
  have hmp : (rm_asset_config (rm_resolved_asset c1Signal)).min_price <
      c1Signal.price := by
    norm_num [rm_resolved_asset, rm_asset_config, c1Signal, hat]
  refine ⟨hmp, rm_execute_stop_tp_ordering 10000 c1Signal c1Data
    (rm_result 10000 c1Signal c1Data.bars) hmp ?_⟩
  simp only [rm_execute]
  rw [if_neg (by simp [c1Data] : ¬(c1Data.bars.isEmpty = true))]

/-! ## Claim C7 -/

theorem map_erase_mkLevels (now : ℕ) (ms : ℚ) (ty : String)
    (raw : List (ℚ × ℚ)) :
    (mkLevels now ms ty raw).map erasePriceLevel =
      raw.filterMap fun ps =>
        if ms ≤ ps.2 then some (ps.1, ty, ps.2) else none := by
  simp only [mkLevels, List.map_filterMap]
  congr 1
  funext ps
  split <;> rfl

/-- A one-bar series (shorter than any detection window). -/
def c7ShortSeries : PriceData :=
  { symbol := "AAPL", timeframe := "1d", bars := [mkPriceBar 0 1 2 0 1 5] }

/-- Three bars closing `[48, 48, 51]` with a volume spike on the last. -/
def c7BreakSeries : PriceData :=
  { symbol := "AAPL", timeframe := "1d",
    bars := [mkPriceBar 0 48 49 47 48 1000, mkPriceBar 1 48 49 47 48 1000,
             mkPriceBar 2 51 52 47 51 1500] }

/-- A single strong resistance level at `50`. -/
def c7Levels : LevelData :=
  { symbol := "AAPL", timeframe := "1d",
    levels := [{ price := 50, level_type := "resistance", strength := 0.8,
                 created_at := 0 }],
    last_updated := 0 }

/-- C7 counterexample: both `SupportResistanceDetector.execute` and
`BreakoutSignalGenerator.execute` read the wall clock (`datetime.now()`),
so two calls on identical inputs at different instants are **not**
field-for-field identical: the `last_updated`, `timestamp` and `expiration`
fields differ. -/
theorem detector_generator_not_time_invariant_cex :
    sr_execute {} 0 c7ShortSeries ≠ sr_execute {} 1 c7ShortSeries ∧
    bk_execute {} 0 (some c7BreakSeries) (some c7Levels) ≠
      bk_execute {} 1 (some c7BreakSeries) (some c7Levels) := by
  constructor
  · intro h
    have h2 := congrArg LevelData.last_updated h
    simp only [sr_execute, apply_ite LevelData.last_updated] at h2
    simp at h2
  · intro h
    have hb : ∀ t : ℕ, bk_execute {} t (some c7BreakSeries) (some c7Levels) =
        [{ symbol := "AAPL", signal_type := .ENTRY_LONG, price := 51,
           timestamp := t, expiration := some (t + 60), confidence := 0.8,
           metadata := { level_price := some 50,
                         level_type := some "resistance",
                         breakout_bar := some 2 } }] := by
      intro t
      norm_num [bk_execute, bkSignalFor, bkBefore, bkAfter, c7BreakSeries,
        c7Levels, mkPriceBar, listSum, List.filterMap_cons]
    rw [hb 0, hb 1] at h
    simp at h

/-- C7 amended: `SupportResistanceDetector.execute` and
`BreakoutSignalGenerator.execute` have no hidden state: their outputs are
pure functions of the price series, the level set, the configuration — and
the clock.  Erasing the clock-fed fields (`created_at`/`last_updated` on
levels, `timestamp`/`expiration` on signals; the unmodelled `signal_id`
UUID is likewise call-fresh), two calls on identical inputs agree field for
field, whatever the two evaluation instants. -/
theorem detector_generator_pure_modulo_time (cfg : SRConfig) (bcfg : BKConfig)
    (t₁ t₂ : ℕ) (pd : PriceData) (pdo : Option PriceData)
    (ldo : Option LevelData) :
    eraseLevelData (sr_execute cfg t₁ pd) =
      eraseLevelData (sr_execute cfg t₂ pd) ∧
    (bk_execute bcfg t₁ pdo ldo).map eraseSignal =
      (bk_execute bcfg t₂ pdo ldo).map eraseSignal := by
  constructor
  · by_cases hlen : pd.bars.length < cfg.window_size * 2
    · simp [sr_execute, hlen, eraseLevelData]
    · simp only [sr_execute, if_neg hlen, eraseLevelData, Prod.mk.injEq,
        true_and]
      rw [List.map_take, List.map_take,
        map_sortByDesc erasePriceLevel PriceLevel.strength
          (fun x => x.2.2) (fun _ => rfl),
        map_sortByDesc erasePriceLevel PriceLevel.strength
          (fun x => x.2.2) (fun _ => rfl),
        List.map_append, List.map_append,
        map_erase_mkLevels, map_erase_mkLevels,
        map_erase_mkLevels, map_erase_mkLevels]
  · cases pdo with
    | none => rfl
    | some pd' =>
      cases ldo with
      | none => rfl
      | some ld =>
        simp only [bk_execute]
        split_ifs <;>
          first
          | rfl
          | · rw [List.map_filterMap, List.map_filterMap]
              congr 1
              funext level
              simp only [bkSignalFor]
              split_ifs <;> rfl

/-! ## Claim C8 -/

/-- C8: on engine start-up, `load_equities` with a missing or zero-length
store yields the empty state set; a store whose contents fail to parse
never escapes to the caller — the original bytes are preserved in a
timestamped `.backup_<ts>` entry and the engine cold-starts with the empty
state set.  (Totality of `load_equities` is the embedding of "never
raises".) -/
theorem load_equities_recovery (parse : String → Option Equities)
    (serialize : Equities → String) (store : Store) (ts : ℕ) :
    ((store.main = none ∨ store.main = some "") →
      (load_equities parse serialize store ts).1 = []) ∧
    (∀ contents, store.main = some contents → contents.length > 0 →
      parse contents = none →
      (load_equities parse serialize store ts).1 = [] ∧
      (ts, contents) ∈ (load_equities parse serialize store ts).2.backups) := by
  constructor
  · rintro (hm | hm) <;> simp [load_equities, hm]
  · intro contents hm hlen hp
    simp [load_equities, hm, hlen, hp, save_equities]

/-- C8 witness: a store holding the unparseable bytes `"garbage"` loads as
the empty state set, with the original bytes quarantined under timestamp
`5`. -/
theorem load_equities_recovery_witness :
    ("garbage".length > 0 ∧
      (fun _ : String => (none : Option Equities)) "garbage" = none) ∧
    (load_equities (fun _ => none) (fun _ => "e")
      ⟨some "garbage", none, []⟩ 5).1 = [] ∧
    (5, "garbage") ∈ (load_equities (fun _ => none) (fun _ => "e")
      ⟨some "garbage", none, []⟩ 5).2.backups := by
  have h := (load_equities_recovery (fun _ => none) (fun _ => "e")
    ⟨some "garbage", none, []⟩ 5).2 "garbage" rfl (by decide) rfl
  exact ⟨⟨by decide, rfl⟩, h.1, h.2⟩
